/-
Verification of the reactivity core of `riot-composables`.

Shallow embedding of the library's core modules:
  * `src/core/computed.ts`  — computed cache cells (`createComputed`),
  * `src/core/effect.ts`    — effect registration (`createEffect`),
  * `src/core/reactive.ts`  — the reactive proxy store
                              (`createReactive` / `isReactive` / `toRaw`),
  * `src/core/watch.ts`     — watch registration (`createWatch`),
  * `src/core/plugin.ts`    — the lifecycle binder's `onBeforeUpdate` pass.

JavaScript machine integers/doubles play no role in the claims; watched
and stored values are modelled by an arbitrary type `α` with decidable
equality standing for `Object.is`-comparison (the claims never involve
`NaN`/`-0`, the one place `Object.is` differs from `===` on primitives).
Exceptions are modelled with `Except`; `console.error` reporting is pure
logging and is not modelled beyond control flow.
-/
import Mathlib

namespace RiotComposables

/-! ## Computed cache cells — `src/core/computed.ts`

`createComputed` builds a record `{ getter, cache: undefined, dirty: true }`
and returns an accessor whose `value` getter is:

```
get value(): T {
  if (computedData.dirty) {
    try {
      computedData.cache = getter();
      computedData.dirty = false;
    } catch (error) {
      console.error(...);
      throw error;
    }
  }
  return computedData.cache as T;
}
```

The getter is instrumented with a call counter `calls` (the spec's
testable property counts getter invocations); the getter itself is
modelled as a function of the invocation number, returning either a
value or a raised error. -/

/-- State of one computed cache cell: the memoized `cache`
(`undefined` ≈ `none`), the coarse `dirty` flag, and the
instrumentation counter of getter invocations. -/
structure ComputedCell (α : Type) where
  cache : Option α
  dirty : Bool
  calls : Nat
deriving Repr, DecidableEq

/-- Initialisation by `createComputed`: `cache: undefined, dirty: true`. -/
def ComputedCell.init (α : Type) : ComputedCell α :=
  { cache := none, dirty := true, calls := 0 }

/-- The `value` accessor of `createComputed`.  `g n` is the outcome of
the `n`-th getter invocation (`.ok v` = return `v`, `.error e` = throw
`e`).  Returns what the read yields (`.ok` of the cache contents, or the
re-raised error) together with the updated cell. -/
def readValue {α ε : Type} (g : Nat → Except ε α) (c : ComputedCell α) :
    Except ε (Option α) × ComputedCell α :=
  if c.dirty then
    match g c.calls with
    | Except.ok v =>
        (Except.ok (some v), { cache := some v, dirty := false, calls := c.calls + 1 })
    | Except.error e =>
        (Except.error e, { c with calls := c.calls + 1 })
  else
    (Except.ok c.cache, c)

/-- Performs `n` consecutive reads of `.value` (results discarded). -/
def readN {α ε : Type} (g : Nat → Except ε α) (c : ComputedCell α) : Nat → ComputedCell α
  | 0 => c
  | n + 1 => readN g (readValue g c).2 n

/-- The plugin's `onBeforeUpdate` marks a cell dirty. -/
def ComputedCell.markDirty {α : Type} (c : ComputedCell α) : ComputedCell α :=
  { c with dirty := true }

/-! ## Watch registrations — `src/core/watch.ts` and the plugin pass

`createWatch` seeds `oldValue` by one synchronous getter invocation and
aborts registration (early `return`, no `watchers.set`) if that
invocation throws:

```
let oldValue: T;
try { oldValue = getter(); }
catch (error) { console.error(...); return; }
component.__composables__.watchers.set(watchId, { getter, callback, oldValue });
```

The plugin's `onBeforeUpdate` then runs, for every registered watcher:

```
try {
  const newValue = watchData.getter();
  if (!Object.is(newValue, watchData.oldValue)) {
    const prevValue = watchData.oldValue;
    watchData.oldValue = newValue;
    try { watchData.callback(newValue, prevValue); } catch (error) { ... }
  }
} catch (error) { console.error(...); }
```

A pass over one watcher is modelled as a function of the getter's
outcome on that pass, returning the updated registration together with
the ordered list of primitive actions the code performs (the `oldValue`
store and the callback invocation, in source order). -/

/-- One watch registration: the stored previous value.  (The getter and
callback live outside the state: a pass takes the getter's outcome as
input and reports callback invocations as actions.) -/
structure WatchReg (α : Type) where
  oldValue : α
deriving Repr, DecidableEq

/-- Primitive actions of a watcher pass, in execution order:
`setOld v` = the assignment `watchData.oldValue = newValue`;
`call n p` = the invocation `callback(newValue, prevValue)`. -/
inductive WAct (α : Type) where
  | setOld (v : α)
  | call (newV prevV : α)
deriving Repr, DecidableEq

/-- The plugin's per-watcher `onBeforeUpdate` check.  `res` is the
outcome of `watchData.getter()` on this pass. -/
def watchPreUpdate {α ε : Type} [DecidableEq α] (w : WatchReg α) (res : Except ε α) :
    WatchReg α × List (WAct α) :=
  match res with
  | Except.error _ => (w, [])
  | Except.ok newV =>
      if newV = w.oldValue then (w, [])
      else ({ oldValue := newV }, [WAct.setOld newV, WAct.call newV w.oldValue])

/-- Registration by `createWatch`: `res` is the outcome of the synchronous seeding
invocation of the getter; on error the watcher list is returned
unchanged (registration aborted), otherwise one seeded registration is
appended. -/
def createWatch {α ε : Type} (res : Except ε α) (ws : List (WatchReg α)) :
    List (WatchReg α) :=
  match res with
  | Except.error _ => ws
  | Except.ok v => ws ++ [{ oldValue := v }]

/-- The plugin's `onBeforeUpdate` sweep over the whole `watchers`
collection (`forEach` in insertion order, never removing entries):
`rs i` is the getter outcome of the `i`-th remaining watcher on this
pass.  Every entry stays in the collection; actions accumulate in
visit order. -/
def watchersPass {α ε : Type} [DecidableEq α] :
    List (WatchReg α) → (Nat → Except ε α) → List (WatchReg α) × List (WAct α)
  | [], _ => ([], [])
  | w :: ws, rs =>
      let first := watchPreUpdate w (rs 0)
      let rest := watchersPass ws (fun i => rs (i + 1))
      (first.1 :: rest.1, first.2 ++ rest.2)

/-! ## Effect registrations — `src/core/effect.ts` and the plugin pass

`createEffect(component, effect, deps?)` stores
`{ effect, deps: deps ? deps() : undefined, depsGetter: deps, cleanup: undefined }`
and then unconditionally wraps the mount hook:

```
const originalOnMounted = component.onMounted;
component.onMounted = function (props, state) {
  runEffect();
  if (originalOnMounted) { return originalOnMounted.call(this, props, state); }
};
```

There is no branch on any mounted/readiness flag and `runEffect` is not
called at registration time.  The host fires `onMounted` once, at
mount; the chain built by repeated wrapping runs the most recently
registered effect first, then the previously installed hook.

The mount scheduling is modelled by a component carrying the mounted
flag (owned by the host — the code never reads it), the chain of
`runEffect` closures installed into `onMounted` (head = outermost wrap,
runs first), and the log of effect bodies actually invoked. -/

/-- Mount-scheduling state of one host component: effects are named by
`Nat` ids.  `pending` is the chain of `runEffect` closures wrapped into
`component.onMounted` (head runs first); `runLog` records each
invocation of an effect body, in execution order. -/
structure MountComp where
  mounted : Bool
  pending : List Nat
  runLog : List Nat
deriving Repr, DecidableEq

/-- Embeds `createEffect` without a dependency getter, restricted to its mount
scheduling: the new `runEffect` is wrapped around the current
`onMounted` (so it will run first), and nothing is invoked now — the
code contains no test of any mounted flag. -/
def createEffectNoDeps (id : Nat) (c : MountComp) : MountComp :=
  { c with pending := id :: c.pending }

/-- The host fires `onMounted` (once, at mount): the installed chain
runs outermost-first, each `runEffect` invoking its effect body. -/
def fireMounted (c : MountComp) : MountComp :=
  { c with mounted := true, runLog := c.runLog ++ c.pending }

/-! The plugin's `onBeforeUpdate` dependency re-check, for one effect
registration that has a dependency getter (`src/core/plugin.ts`):

```
const newDeps = effectData.depsGetter();
const hasChanged =
  !effectData.deps ||
  effectData.deps.length !== newDeps.length ||
  newDeps.some((dep, i) => !Object.is(dep, effectData.deps![i]));
if (hasChanged) {
  effectData.deps = newDeps;
  if (effectData.cleanup) { try { effectData.cleanup(); } catch ... }
  try {
    const cleanup = effectData.effect();
    if (typeof cleanup === 'function') { effectData.cleanup = cleanup; }
  } catch ...
}
```

(`effectData.deps` is an array and hence truthy whenever a getter was
supplied, so the `!effectData.deps` disjunct is inert.) -/

/-- One dependency-bearing effect registration: the stored dependency
snapshot and whether a cleanup function is currently stored. -/
structure EffectReg (α : Type) where
  deps : List α
  hasCleanup : Bool
deriving Repr, DecidableEq

/-- Primitive actions of the effect re-check, in execution order:
the previous cleanup invocation and the effect body invocation. -/
inductive EffAct where
  | cleanup
  | run
deriving Repr, DecidableEq

/-- The `hasChanged` computation: length comparison, then pairwise
`Object.is` over the new snapshot's indices (`newDeps.some(...)`). -/
def depsChanged {α : Type} [DecidableEq α] (old new : List α) : Bool :=
  decide (old.length ≠ new.length) || (new.zip old).any (fun p => decide (p.1 ≠ p.2))

/-- The plugin's per-effect `onBeforeUpdate` re-check.  `out` is the
outcome of invoking the effect body: `none` = it threw (caught and
reported); `some b` = it returned, with `b` = the return value is a
function (a new cleanup).  On a changed snapshot the stored deps are
replaced, the previous cleanup (if any) runs first, then the effect
body; the stored cleanup is replaced only when the body returns a
function (otherwise the old reference — already consumed — is kept,
matching the code).  On an unchanged snapshot nothing happens. -/
def effectPreUpdate {α : Type} [DecidableEq α] (r : EffectReg α) (newDeps : List α)
    (out : Option Bool) : EffectReg α × List EffAct :=
  if depsChanged r.deps newDeps then
    ({ deps := newDeps,
       hasCleanup := match out with
         | some true => true
         | _ => r.hasCleanup },
     (if r.hasCleanup then [EffAct.cleanup] else []) ++ [EffAct.run])
  else
    (r, [])

/-! ## The reactive proxy store — `src/core/reactive.ts`

JavaScript objects are modelled by numeric identities; the heap maps an
object identity and a string property key to a value.  The module-level
`WeakMap`s `rawToReactive` / `reactiveToRaw` (shared by *all* host
instances — they live at module scope, not per component) are
association lists over object identities, and each proxy records the
`component` captured by the trap closures of the `createReactive` call
that created it.  Proxy allocation draws fresh identities from a
counter.  `component.update()` invocations are modelled by appending
the called component's id to a log (the `try/catch` around `update()`
only affects error reporting, not the state modelled here).

The reactive marker: `REACTIVE_MARKER` is a module-private `Symbol`
that is never assigned to any object; the `get`/`has` traps merely
answer `true` when asked for it.  `isReactive` tests `REACTIVE_MARKER
in value`, which for a foreign object runs *that object's* property
lookup; an ordinary object reports the private symbol absent, but an
exotic object (e.g. a foreign `Proxy` whose `has` trap reports
arbitrary properties present) may report it present.  The parameter
`exotic` of `isReactive` records, for each non-store object, whether
its `in`-check reports the private marker present (`false` for every
ordinary object). -/

/-- JavaScript values: `jnull`/`undef`, primitives, or an object
reference. -/
inductive JVal where
  | jnull
  | undef
  | num (n : Int)
  | str (s : String)
  | jbool (b : Bool)
  | obj (id : Nat)
deriving Repr, DecidableEq

/-- Own string-keyed properties of all objects. -/
abbrev Heap : Type := List ((Nat × String) × JVal)

/-- Models `Reflect.get`: the property's value, `undefined` when absent. -/
def heapGet : Heap → Nat → String → JVal
  | [], _, _ => JVal.undef
  | ((o, k), v) :: rest, oid, key =>
      if o = oid ∧ k = key then v else heapGet rest oid key

/-- Models `Reflect.set`: (re)bind one own property. -/
def heapSet (h : Heap) (oid : Nat) (key : String) (v : JVal) : Heap :=
  ((oid, key), v) :: h

/-- First-match association lookup (the `WeakMap.get` of the model). -/
def assocLookup : List (Nat × Nat) → Nat → Option Nat
  | [], _ => none
  | (k, v) :: rest, key => if k = key then some v else assocLookup rest key

/-- The module-scope state of `src/core/reactive.ts`: the fresh-identity
counter for proxy allocation and the two `WeakMap`s, plus the owner
component captured by each proxy's trap closures. -/
structure RStore where
  nextId : Nat
  rawToReactive : List (Nat × Nat)
  reactiveToRaw : List (Nat × Nat)
  owner : List (Nat × Nat)
deriving Repr, DecidableEq

def RStore.empty : RStore := ⟨0, [], [], []⟩

/-- Whole mutable world the reactive module touches: the object heap,
the module-scope store, the log of `component.update()` calls, and the
per-component `__composables__.states` registrations. -/
structure World where
  heap : Heap
  store : RStore
  updates : List Nat
  states : List (Nat × Nat)
deriving Repr, DecidableEq

def World.empty : World := ⟨[], RStore.empty, [], []⟩

/-- The inner `createProxy` of `createReactive` (closing over
`component = comp`): return the existing proxy of `target` if the
`WeakMap` has one, otherwise allocate a fresh proxy and register it in
both maps. -/
def createProxy (comp target : Nat) (w : World) : Nat × World :=
  match assocLookup w.store.rawToReactive target with
  | some p => (p, w)
  | none =>
      let p := w.store.nextId
      (p, { w with store :=
        { nextId := w.store.nextId + 1
          rawToReactive := (target, p) :: w.store.rawToReactive
          reactiveToRaw := (p, target) :: w.store.reactiveToRaw
          owner := (p, comp) :: w.store.owner } })

/-- Embeds `createReactive(component, initialState)`: early-return the
existing proxy if `initialState` is already wrapped (skipping the
`states` registration), else deep-wrap it and record the root proxy in
the component's context. -/
def createReactive (comp initialState : Nat) (w : World) : Nat × World :=
  match assocLookup w.store.rawToReactive initialState with
  | some p => (p, w)
  | none =>
      let r := createProxy comp initialState w
      (r.1, { r.2 with states := (comp, r.1) :: r.2.states })

/-- The proxy `get` trap on a string property: read the raw target's
property; object values are lazily wrapped by `createProxy` under the
component captured at the proxy's creation; primitives pass through.
(The `REACTIVE_MARKER` branch concerns only the private symbol, which
no string key reaches.) -/
def proxyGet (p : Nat) (key : String) (w : World) : JVal × World :=
  match assocLookup w.store.reactiveToRaw p with
  | none => (JVal.undef, w)
  | some target =>
      match heapGet w.heap target key with
      | JVal.obj id =>
          let comp := (assocLookup w.store.owner p).getD 0
          let r := createProxy comp id w
          (JVal.obj r.1, r.2)
      | v => (v, w)

/-- The proxy `set` trap: compare the old value under `Object.is`; an
unchanged write returns without assigning or notifying; a changed write
assigns and then calls `component.update()` of the component captured
at the proxy's creation. -/
def proxySet (p : Nat) (key : String) (v : JVal) (w : World) : Bool × World :=
  match assocLookup w.store.reactiveToRaw p with
  | none => (true, w)
  | some target =>
      let oldValue := heapGet w.heap target key
      if oldValue = v then (true, w)
      else
        let comp := (assocLookup w.store.owner p).getD 0
        (true, { w with heap := heapSet w.heap target key v
                        updates := w.updates ++ [comp] })

/-- Whether `REACTIVE_MARKER in value` reports the marker present for
object `id`: a store proxy's `has` trap answers `true`; otherwise the
object's own `in`-behaviour (`exotic`) decides — `false` for every
ordinary object, possibly `true` for a foreign exotic object. -/
def markerPresent (w : World) (exotic : Nat → Bool) (id : Nat) : Bool :=
  match assocLookup w.store.reactiveToRaw id with
  | some _ => true
  | none => exotic id

/-- Embeds `isReactive(value)`: `value !== null && typeof value === 'object'
&& REACTIVE_MARKER in value`. -/
def isReactive (w : World) (exotic : Nat → Bool) (v : JVal) : Bool :=
  match v with
  | JVal.obj id => markerPresent w exotic id
  | _ => false

/-- Embeds `toRaw(reactive)`: primitives unchanged; objects looked up in
`reactiveToRaw`, with `?? reactive` for untracked ones. -/
def toRaw (w : World) (v : JVal) : JVal :=
  match v with
  | JVal.obj id =>
      match assocLookup w.store.reactiveToRaw id with
      | some raw => JVal.obj raw
      | none => v
  | _ => v

/-- Store invariant used where proxy-identity freshness matters: every
registered proxy identity is below the allocation counter (allocation
never reuses an identity). -/
def proxyIdsFresh (w : World) : Prop :=
  ∀ q t, assocLookup w.store.reactiveToRaw q = some t → q < w.store.nextId

/-- World with one raw object (identity 100) holding `k ↦ 0`, not yet
wrapped by anyone. -/
def worldAB : World :=
  { heap := [((100, "k"), JVal.num 0)], store := RStore.empty, updates := [], states := [] }

/-- World with one store proxy (identity 0, owner component 5) over the
raw object 10, whose property `a` holds the raw object 30. -/
def worldNested : World :=
  { heap := [((10, "a"), JVal.obj 30)]
    store := { nextId := 1, rawToReactive := [(10, 0)], reactiveToRaw := [(0, 10)],
               owner := [(0, 5)] }
    updates := []
    states := [] }

/-! ## Lemmas -/

lemma readValue_not_dirty {α ε : Type} (g : Nat → Except ε α) (c : ComputedCell α)
    (h : c.dirty = false) : readValue g c = (Except.ok c.cache, c) := by
  simp [readValue, h]

lemma readValue_dirty_ok {α ε : Type} (g : Nat → Except ε α) (c : ComputedCell α) (v : α)
    (hd : c.dirty = true) (hg : g c.calls = Except.ok v) :
    readValue g c =
      (Except.ok (some v), { cache := some v, dirty := false, calls := c.calls + 1 }) := by
  simp [readValue, hd, hg]

lemma readValue_dirty_error {α ε : Type} (g : Nat → Except ε α) (c : ComputedCell α) (e : ε)
    (hd : c.dirty = true) (hg : g c.calls = Except.error e) :
    readValue g c = (Except.error e, { c with calls := c.calls + 1 }) := by
  simp [readValue, hd, hg]

lemma readN_not_dirty {α ε : Type} (g : Nat → Except ε α) (c : ComputedCell α)
    (h : c.dirty = false) : ∀ n, readN g c n = c := by
  intro n
  induction n with
  | zero => rfl
  | succ n ih =>
      simp [readN, readValue_not_dirty g c h, ih]

lemma mem_zip_self_eq {α : Type} : ∀ {l : List α} {a b : α}, (a, b) ∈ l.zip l → a = b
  | [], _, _, h => by cases h
  | c :: l, a, b, h => by
      rcases List.mem_cons.mp h with h1 | h2
      · injection h1 with h1a h1b
        rw [h1a, h1b]
      · exact mem_zip_self_eq h2

lemma zip_self_any_ne {α : Type} [DecidableEq α] (l : List α) :
    (l.zip l).any (fun p => decide (p.1 ≠ p.2)) = false := by
  simp
  exact fun a b h => mem_zip_self_eq h

lemma depsChanged_self {α : Type} [DecidableEq α] (l : List α) :
    depsChanged l l = false := by
  unfold depsChanged
  rw [zip_self_any_ne]
  simp

lemma eq_of_depsChanged_eq_false {α : Type} [DecidableEq α] :
    ∀ (old new : List α), depsChanged old new = false → old = new
  | [], [], _ => rfl
  | [], _ :: _, h => by simp [depsChanged] at h
  | _ :: _, [], h => by simp [depsChanged] at h
  | a :: as, b :: bs, h => by
      simp only [depsChanged, List.length_cons, List.zip_cons_cons, List.any_cons,
        Bool.or_eq_false_iff, decide_eq_false_iff_not, ne_eq, not_not] at h
      obtain ⟨hlen, hhead, htail⟩ := h
      have hrest : as = bs := by
        refine eq_of_depsChanged_eq_false as bs ?_
        simp only [depsChanged, Bool.or_eq_false_iff, decide_eq_false_iff_not,
          ne_eq, not_not]
        exact ⟨by omega, htail⟩
      rw [hhead, hrest]

lemma depsChanged_eq_false_iff {α : Type} [DecidableEq α] (old new : List α) :
    depsChanged old new = false ↔ old = new :=
  ⟨eq_of_depsChanged_eq_false old new, fun h => h ▸ depsChanged_self old⟩

lemma createProxy_heap (c t : Nat) (w : World) :
    (createProxy c t w).2.heap = w.heap := by
  cases h : assocLookup w.store.rawToReactive t <;> simp [createProxy, h]

lemma createProxy_updates (c t : Nat) (w : World) :
    (createProxy c t w).2.updates = w.updates := by
  cases h : assocLookup w.store.rawToReactive t <;> simp [createProxy, h]

lemma createProxy_raw_registered (c t : Nat) (w : World) :
    assocLookup (createProxy c t w).2.store.rawToReactive t =
      some (createProxy c t w).1 := by
  cases h : assocLookup w.store.rawToReactive t with
  | some p => simp [createProxy, h]
  | none => simp [createProxy, h, assocLookup]

lemma createProxy_of_found {c t p : Nat} {w : World}
    (h : assocLookup w.store.rawToReactive t = some p) :
    createProxy c t w = (p, w) := by
  simp [createProxy, h]

lemma createReactive_of_found {c raw p : Nat} {w : World}
    (h : assocLookup w.store.rawToReactive raw = some p) :
    createReactive c raw w = (p, w) := by
  simp [createReactive, h]

lemma createReactive_raw_registered (c raw : Nat) (w : World) :
    assocLookup (createReactive c raw w).2.store.rawToReactive raw =
      some (createReactive c raw w).1 := by
  cases h : assocLookup w.store.rawToReactive raw with
  | some p => simp [createReactive, h]
  | none => simpa [createReactive, h] using createProxy_raw_registered c raw w

lemma createProxy_preserves_reactive_lookup (c t : Nat) (w : World) (q τ : Nat)
    (hq : assocLookup w.store.reactiveToRaw q = some τ) (hlt : q < w.store.nextId) :
    assocLookup (createProxy c t w).2.store.reactiveToRaw q = some τ := by
  cases h : assocLookup w.store.rawToReactive t with
  | some p => simpa [createProxy, h] using hq
  | none =>
      have hne : w.store.nextId ≠ q := by omega
      simpa [createProxy, h, assocLookup, hne] using hq

/-! ## Claims -/

/-- C6: reading `.value` any number N ≥ 1 of times between two
dirty-markings invokes the getter exactly once: the first read while
dirty invokes the getter, stores the result and clears the dirty flag,
and every later read before the next dirty-marking returns the stored
result without invoking the getter (state, in particular the invocation
counter, unchanged). -/
theorem computed_caching_exactly_once {α ε : Type}
    (g : Nat → Except ε α) (c : ComputedCell α) (v : α)
    (hd : c.dirty = true) (hg : g c.calls = Except.ok v) :
    (readValue g c).1 = Except.ok (some v) ∧
    (readValue g c).2 = ⟨some v, false, c.calls + 1⟩ ∧
    ∀ n : Nat,
      readN g c (n + 1) = ⟨some v, false, c.calls + 1⟩ ∧
      (readValue g (readN g c (n + 1))).1 = Except.ok (some v) ∧
      (readValue g (readN g c (n + 1))).2 = readN g c (n + 1) := by
  have h1 := readValue_dirty_ok g c v hd hg
  refine ⟨by rw [h1], by rw [h1], ?_⟩
  intro n
  have hstep : readN g c (n + 1) = ⟨some v, false, c.calls + 1⟩ := by
    show readN g (readValue g c).2 n = _
    rw [h1]
    exact readN_not_dirty g _ rfl n
  refine ⟨hstep, ?_, ?_⟩
  · rw [hstep, readValue_not_dirty _ _ rfl]
  · rw [hstep, readValue_not_dirty _ _ rfl]

/-- Witness for `computed_caching_exactly_once` at the freshly created
cell and the constant getter returning 42. -/
theorem computed_caching_exactly_once_witness :
    (readValue (fun _ : Nat => (Except.ok 42 : Except String Int))
        (ComputedCell.init Int)).1 = Except.ok (some 42) ∧
    (readValue (fun _ : Nat => (Except.ok 42 : Except String Int))
        (ComputedCell.init Int)).2 = ⟨some 42, false, 1⟩ ∧
    ∀ n : Nat,
      readN (fun _ : Nat => (Except.ok 42 : Except String Int))
          (ComputedCell.init Int) (n + 1) = ⟨some 42, false, 1⟩ ∧
      (readValue (fun _ : Nat => (Except.ok 42 : Except String Int))
          (readN (fun _ : Nat => (Except.ok 42 : Except String Int))
            (ComputedCell.init Int) (n + 1))).1 = Except.ok (some 42) ∧
      (readValue (fun _ : Nat => (Except.ok 42 : Except String Int))
          (readN (fun _ : Nat => (Except.ok 42 : Except String Int))
            (ComputedCell.init Int) (n + 1))).2 =
        readN (fun _ : Nat => (Except.ok 42 : Except String Int))
          (ComputedCell.init Int) (n + 1) :=
  computed_caching_exactly_once _ _ 42 rfl rfl

/-- C5: if the getter raises while the cell is dirty, the same error is
re-raised to the caller, the result is not cached (cache unchanged), the
cell remains dirty, and the next read invokes the getter again (the
invocation counter advances on that read too, whatever its outcome). -/
theorem computed_error_not_cached {α ε : Type}
    (g : Nat → Except ε α) (c : ComputedCell α) (e : ε)
    (hd : c.dirty = true) (hg : g c.calls = Except.error e) :
    readValue g c = (Except.error e, { c with calls := c.calls + 1 }) ∧
    (readValue g c).2.dirty = true ∧
    (readValue g c).2.cache = c.cache ∧
    (readValue g (readValue g c).2).2.calls = c.calls + 2 := by
  have h1 := readValue_dirty_error g c e hd hg
  refine ⟨h1, by rw [h1]; exact hd, by rw [h1], ?_⟩
  rw [h1]
  show (readValue g { c with calls := c.calls + 1 }).2.calls = c.calls + 2
  unfold readValue
  simp only [hd, if_true]
  cases g (c.calls + 1) <;> rfl

/-- Witness for `computed_error_not_cached` at the freshly created cell
and the constant throwing getter. -/
theorem computed_error_not_cached_witness :
    readValue (fun _ : Nat => (Except.error "boom" : Except String Int))
        (ComputedCell.init Int) =
      (Except.error "boom", { ComputedCell.init Int with calls := 0 + 1 }) ∧
    (readValue (fun _ : Nat => (Except.error "boom" : Except String Int))
        (ComputedCell.init Int)).2.dirty = true ∧
    (readValue (fun _ : Nat => (Except.error "boom" : Except String Int))
        (ComputedCell.init Int)).2.cache = (ComputedCell.init Int).cache ∧
    (readValue (fun _ : Nat => (Except.error "boom" : Except String Int))
        (readValue (fun _ : Nat => (Except.error "boom" : Except String Int))
          (ComputedCell.init Int)).2).2.calls = 0 + 2 :=
  computed_error_not_cached _ _ "boom" rfl rfl

/-- C7: a watcher seeded with 0 whose getter yields 0 then 5 across two
pre-update passes invokes the callback exactly once, with arguments
(5, 0); in general the callback fires only when the new value differs
from the stored previous value under `Object.is`, and when it fires the
stored previous value is assigned the new value before the callback is
invoked (the `setOld` action precedes the `call` action, which receives
the pre-pass previous value). -/
theorem watch_diff_correctness :
    ((watchPreUpdate (⟨0⟩ : WatchReg Int) (Except.ok 0 : Except String Int)).2 ++
      (watchPreUpdate (watchPreUpdate (⟨0⟩ : WatchReg Int)
          (Except.ok 0 : Except String Int)).1
        (Except.ok 5 : Except String Int)).2 =
      [WAct.setOld 5, WAct.call 5 0]) ∧
    (∀ (w : WatchReg Int) (newV : Int), newV = w.oldValue →
      watchPreUpdate w (Except.ok newV : Except String Int) = (w, [])) ∧
    (∀ (w : WatchReg Int) (newV : Int), newV ≠ w.oldValue →
      watchPreUpdate w (Except.ok newV : Except String Int) =
        ({ oldValue := newV }, [WAct.setOld newV, WAct.call newV w.oldValue])) := by
  refine ⟨by decide, ?_, ?_⟩
  · intro w newV h
    simp [watchPreUpdate, h]
  · intro w newV h
    simp [watchPreUpdate, h]

/-- Witness for `watch_diff_correctness`: the no-change and the changed
branch at concrete previous value 3 and new values 3 and 7. -/
theorem watch_diff_correctness_witness :
    watchPreUpdate (⟨3⟩ : WatchReg Int) (Except.ok 3 : Except String Int) = (⟨3⟩, []) ∧
    watchPreUpdate (⟨3⟩ : WatchReg Int) (Except.ok 7 : Except String Int) =
      (⟨7⟩, [WAct.setOld 7, WAct.call 7 3]) :=
  ⟨watch_diff_correctness.2.1 ⟨3⟩ 3 rfl,
   watch_diff_correctness.2.2 ⟨3⟩ 7 (by decide)⟩

/-- C8: a watcher whose seeding getter invocation throws is not
registered at all (the collection is returned unchanged — atomic
abort), while a successful seed appends exactly one registration; a
getter error on a later pre-update pass leaves the registration
unchanged (previous value untouched, no callback) and the watcher stays
in the collection — a sweep in which every getter throws returns the
collection exactly as it was. -/
theorem watch_error_handling :
    (∀ (ws : List (WatchReg Int)) (e : String), createWatch (Except.error e) ws = ws) ∧
    (∀ (ws : List (WatchReg Int)) (v : Int),
      createWatch (Except.ok v : Except String Int) ws = ws ++ [⟨v⟩]) ∧
    (∀ (w : WatchReg Int) (e : String),
      watchPreUpdate w (Except.error e : Except String Int) = (w, [])) ∧
    (∀ (ws : List (WatchReg Int)) (rs : Nat → Except String Int),
      (∀ i, ∃ e, rs i = Except.error e) → watchersPass ws rs = (ws, [])) := by
  refine ⟨fun ws e => rfl, fun ws v => rfl, fun w e => rfl, ?_⟩
  intro ws
  induction ws with
  | nil => intro rs _; rfl
  | cons w ws ih =>
      intro rs h
      obtain ⟨e, he⟩ := h 0
      have hrest := ih (fun i => rs (i + 1)) (fun i => h (i + 1))
      simp [watchersPass, he, hrest, watchPreUpdate]

/-- Witness for `watch_error_handling`: a two-element collection where
both getters throw survives a sweep unchanged. -/
theorem watch_error_handling_witness :
    createWatch (Except.error "seedfail") [(⟨1⟩ : WatchReg Int)] = [⟨1⟩] ∧
    createWatch (Except.ok 4 : Except String Int) [(⟨1⟩ : WatchReg Int)] = [⟨1⟩, ⟨4⟩] ∧
    watchPreUpdate (⟨9⟩ : WatchReg Int) (Except.error "passfail" : Except String Int) =
      (⟨9⟩, []) ∧
    watchersPass [(⟨1⟩ : WatchReg Int), ⟨2⟩]
        (fun _ => (Except.error "passfail" : Except String Int)) = ([⟨1⟩, ⟨2⟩], []) :=
  ⟨watch_error_handling.1 [⟨1⟩] "seedfail",
   watch_error_handling.2.1 [⟨1⟩] 4,
   watch_error_handling.2.2.1 ⟨9⟩ "passfail",
   watch_error_handling.2.2.2 [⟨1⟩, ⟨2⟩] _ (fun _ => ⟨"passfail", rfl⟩)⟩

/-- C1 counterexample: the claim states that an effect registered on an
already-mounted instance runs immediately at registration time.  In the
code, registration only wraps `onMounted` — on the component that has
already mounted (`mounted = true`, empty log), registering effect 7
leaves the run log empty: the effect did not run. -/
theorem effect_no_immediate_run_when_mounted :
    ¬ (∀ (c : MountComp) (id : Nat), c.mounted = true →
        ((createEffectNoDeps id c).runLog.count id) = c.runLog.count id + 1) := by
  intro h
  have := h ⟨true, [], []⟩ 7 rfl
  simp [createEffectNoDeps] at this

/-- C1 amended: registering a zero-dependency effect never invokes the
effect at registration time, regardless of mount status; it is always
deferred to the wrapped mount hook, and when the host fires the mount
hook after the registration the effect body runs exactly once for that
registration — never twice from a single mount.  (A registration made
after the host's single mount event therefore never runs.) -/
theorem effect_deferred_to_mount_exactly_once
    (c : MountComp) (id : Nat) (hp : id ∉ c.pending) (hr : id ∉ c.runLog) :
    (createEffectNoDeps id c).runLog = c.runLog ∧
    ((fireMounted (createEffectNoDeps id c)).runLog.count id) = 1 := by
  constructor
  · rfl
  · simp [createEffectNoDeps, fireMounted, List.count_append, List.count_cons,
      List.count_eq_zero_of_not_mem hp, List.count_eq_zero_of_not_mem hr]

/-- Witness for `effect_deferred_to_mount_exactly_once` at the fresh
unmounted component and effect id 7. -/
theorem effect_deferred_to_mount_exactly_once_witness :
    (createEffectNoDeps 7 ⟨false, [], []⟩).runLog = ([] : List Nat) ∧
    ((fireMounted (createEffectNoDeps 7 ⟨false, [], []⟩)).runLog.count 7) = 1 :=
  effect_deferred_to_mount_exactly_once ⟨false, [], []⟩ 7 (by decide) (by decide)

/-- C4: on a pre-update pass for an effect with a dependency getter, the
new snapshot is compared with the stored one by length and pairwise
under `Object.is` (so there is "a difference" exactly when the
snapshots differ as sequences); a difference runs the previous cleanup
exactly once (when one exists) followed by exactly one invocation of
the effect body, and replaces the stored snapshot with the new one; no
difference leaves the registration, including the stored snapshot,
untouched and invokes nothing. -/
theorem effect_dependency_gating {α : Type} [DecidableEq α]
    (r : EffectReg α) (newDeps : List α) (out : Option Bool) :
    (depsChanged r.deps newDeps = true ↔ r.deps ≠ newDeps) ∧
    (r.deps ≠ newDeps →
      (effectPreUpdate r newDeps out).2 =
        (if r.hasCleanup then [EffAct.cleanup] else []) ++ [EffAct.run] ∧
      (effectPreUpdate r newDeps out).2.count EffAct.run = 1 ∧
      (effectPreUpdate r newDeps out).2.count EffAct.cleanup =
        (if r.hasCleanup then 1 else 0) ∧
      (effectPreUpdate r newDeps out).1.deps = newDeps) ∧
    (r.deps = newDeps → effectPreUpdate r newDeps out = (r, [])) := by
  have hiff : depsChanged r.deps newDeps = true ↔ r.deps ≠ newDeps := by
    rw [← not_iff_not]
    simp only [Bool.not_eq_true, not_not]
    exact depsChanged_eq_false_iff r.deps newDeps
  refine ⟨hiff, ?_, ?_⟩
  · intro hne
    have hc : depsChanged r.deps newDeps = true := hiff.mpr hne
    refine ⟨by simp [effectPreUpdate, hc], ?_, ?_, by simp [effectPreUpdate, hc]⟩
    · cases h : r.hasCleanup <;>
        simp [effectPreUpdate, hc, h, List.count_append, List.count_cons]
    · cases h : r.hasCleanup <;>
        simp [effectPreUpdate, hc, h, List.count_append, List.count_cons]
  · intro heq
    have hc : depsChanged r.deps newDeps = false :=
      (depsChanged_eq_false_iff r.deps newDeps).mpr heq
    simp [effectPreUpdate, hc]

/-- Witness for `effect_dependency_gating`: a registration with
snapshot [1, 2] and a live cleanup, re-checked against the changed
snapshot [1, 3] and the unchanged snapshot [1, 2]. -/
theorem effect_dependency_gating_witness :
    (depsChanged ([1, 2] : List Int) [1, 3] = true ↔ ([1, 2] : List Int) ≠ [1, 3]) ∧
    ((effectPreUpdate (⟨[1, 2], true⟩ : EffectReg Int) [1, 3] (some true)).2 =
        [EffAct.cleanup, EffAct.run] ∧
      (effectPreUpdate (⟨[1, 2], true⟩ : EffectReg Int) [1, 3] (some true)).1.deps =
        [1, 3]) ∧
    effectPreUpdate (⟨[1, 2], true⟩ : EffectReg Int) [1, 2] (some true) =
      (⟨[1, 2], true⟩, []) := by
  have h := effect_dependency_gating (⟨[1, 2], true⟩ : EffectReg Int) [1, 3] (some true)
  have h2 := effect_dependency_gating (⟨[1, 2], true⟩ : EffectReg Int) [1, 2] (some true)
  have hne : ([1, 2] : List Int) ≠ [1, 3] := by decide
  refine ⟨h.1, ⟨?_, (h.2.1 hne).2.2.2⟩, h2.2.2 rfl⟩
  have := (h.2.1 hne).1
  simpa using this

/-- C2 counterexample: the claim states that `isReactive(x)` is true
only for proxies produced by this store, decided via the identity
table, with no false positive on an unrelated object that reports
arbitrary properties as present.  The code tests `REACTIVE_MARKER in
value`: on the empty store, an unrelated exotic object (identity 0)
whose `in`-check reports every property present is reported reactive
even though the identity table has no entry for it. -/
theorem isReactive_not_identity_based :
    ¬ (∀ (w : World) (exotic : Nat → Bool) (v : JVal),
        isReactive w exotic v = true →
          ∃ id, v = JVal.obj id ∧
            (assocLookup w.store.reactiveToRaw id).isSome = true) := by
  intro h
  obtain ⟨id, hid, hsome⟩ := h World.empty (fun _ => true) (JVal.obj 0) rfl
  injection hid with hid0
  rw [← hid0] at hsome
  simp [World.empty, RStore.empty, assocLookup] at hsome

/-- C2 amended: `isReactive(x)` is true exactly when `x` is a non-null
object whose `in`-check reports the module-private reactive marker
present: every proxy produced by the store is reported reactive
(its `has` trap answers true), primitives and `null` are not, an
ordinary untracked object is not — but the decision is marker-based
(through the `has` trap), not identity-table-based, so an unrelated
exotic object that reports arbitrary properties as present is wrongly
reported reactive. -/
theorem isReactive_marker_semantics (w : World) (exotic : Nat → Bool) :
    (∀ id, isReactive w exotic (JVal.obj id) =
      ((assocLookup w.store.reactiveToRaw id).isSome || exotic id)) ∧
    isReactive w exotic JVal.jnull = false ∧
    isReactive w exotic JVal.undef = false ∧
    (∀ n, isReactive w exotic (JVal.num n) = false) ∧
    (∀ s, isReactive w exotic (JVal.str s) = false) ∧
    (∀ b, isReactive w exotic (JVal.jbool b) = false) ∧
    (∀ (c raw : Nat) (w' : World),
      assocLookup w'.store.rawToReactive raw = none →
      isReactive (createReactive c raw w').2 exotic
        (JVal.obj (createReactive c raw w').1) = true) := by
  refine ⟨?_, rfl, rfl, fun n => rfl, fun s => rfl, fun b => rfl, ?_⟩
  · intro id
    cases h : assocLookup w.store.reactiveToRaw id <;>
      simp [isReactive, markerPresent, h]
  · intro c raw w' h
    simp [createReactive, h, createProxy, isReactive, markerPresent, assocLookup]

/-- Witness for `isReactive_marker_semantics`: the empty store with no
exotic objects, and a fresh wrap of raw object 5. -/
theorem isReactive_marker_semantics_witness :
    (∀ id, isReactive World.empty (fun _ => false) (JVal.obj id) =
      ((assocLookup World.empty.store.reactiveToRaw id).isSome || false)) ∧
    isReactive (createReactive 3 5 World.empty).2 (fun _ => false)
      (JVal.obj (createReactive 3 5 World.empty).1) = true :=
  ⟨(isReactive_marker_semantics World.empty (fun _ => false)).1,
   (isReactive_marker_semantics World.empty (fun _ => false)).2.2.2.2.2.2 3 5
     World.empty rfl⟩

/-- C3 counterexample: instances A (= 1) and B (= 2) both wrap the raw
object 100.  B receives the very proxy created for A (the module-level
raw↔proxy map early-returns it), and a changed write through that proxy
calls `update()` of A — the component captured by the proxy's traps —
and never B's: the update log is `[1]` and 2 does not occur in it. -/
theorem reactive_cross_instance_counterexample :
    (createReactive 2 100 (createReactive 1 100 worldAB).2).1 =
      (createReactive 1 100 worldAB).1 ∧
    (proxySet (createReactive 2 100 (createReactive 1 100 worldAB).2).1 "k"
        (JVal.num 5)
        (createReactive 2 100 (createReactive 1 100 worldAB).2).2).2.updates = [1] ∧
    ¬ 2 ∈ (proxySet (createReactive 2 100 (createReactive 1 100 worldAB).2).1 "k"
        (JVal.num 5)
        (createReactive 2 100 (createReactive 1 100 worldAB).2).2).2.updates := by
  decide

/-- C3 amended: the raw↔proxy map is module-global, not per instance.
If instance B calls the make-reactive primitive on a raw object another
instance already wrapped, B receives that existing proxy and the world
is unchanged (B's call registers nothing of its own), and a changed
write through that proxy invokes `update()` of the component captured
at the proxy's creation — the creating instance — not B. -/
theorem reactive_shared_raw_updates_creator
    (w : World) (cA cB raw p t : Nat) (key : String) (v : JVal)
    (hA : assocLookup w.store.rawToReactive raw = some p)
    (hOwn : assocLookup w.store.owner p = some cA)
    (hT : assocLookup w.store.reactiveToRaw p = some t)
    (hNe : heapGet w.heap t key ≠ v) :
    createReactive cB raw w = (p, w) ∧
    (proxySet p key v w).2.updates = w.updates ++ [cA] := by
  refine ⟨createReactive_of_found hA, ?_⟩
  simp [proxySet, hT, hOwn, hNe]

/-- Witness for `reactive_shared_raw_updates_creator`: the world in
which component 1 has wrapped raw object 100 as proxy 0, visited by
component 2. -/
theorem reactive_shared_raw_updates_creator_witness :
    createReactive 2 100
        (⟨[((100, "k"), JVal.num 0)], ⟨1, [(100, 0)], [(0, 100)], [(0, 1)]⟩,
          [], [(1, 0)]⟩ : World) =
      (0, ⟨[((100, "k"), JVal.num 0)], ⟨1, [(100, 0)], [(0, 100)], [(0, 1)]⟩,
          [], [(1, 0)]⟩) ∧
    (proxySet 0 "k" (JVal.num 5)
        (⟨[((100, "k"), JVal.num 0)], ⟨1, [(100, 0)], [(0, 100)], [(0, 1)]⟩,
          [], [(1, 0)]⟩ : World)).2.updates = [] ++ [1] :=
  reactive_shared_raw_updates_creator _ 1 2 100 0 100 "k" (JVal.num 5)
    rfl rfl rfl (by decide)

/-- C9: (identity stability) wrapping the same raw object twice returns
the same proxy with the world unchanged by the second call, whichever
instance makes it; reading an object-valued property holding the same
raw sub-object through two (possibly different) parent proxies yields
the same nested proxy, the second read changing nothing; and `toRaw`
is a left inverse of wrapping — it maps a freshly created proxy back to
the original raw object's identity, and returns primitives, `null` and
untracked objects unchanged. -/
theorem reactive_identity_stability :
    (∀ (c c' raw : Nat) (w : World),
      createReactive c' raw (createReactive c raw w).2 =
        ((createReactive c raw w).1, (createReactive c raw w).2)) ∧
    (∀ (w : World) (p1 p2 t1 t2 r : Nat) (k1 k2 : String),
      proxyIdsFresh w →
      assocLookup w.store.reactiveToRaw p1 = some t1 →
      assocLookup w.store.reactiveToRaw p2 = some t2 →
      heapGet w.heap t1 k1 = JVal.obj r →
      heapGet w.heap t2 k2 = JVal.obj r →
      (proxyGet p2 k2 (proxyGet p1 k1 w).2).1 = (proxyGet p1 k1 w).1 ∧
      (proxyGet p2 k2 (proxyGet p1 k1 w).2).2 = (proxyGet p1 k1 w).2) ∧
    (∀ (c raw : Nat) (w : World),
      assocLookup w.store.rawToReactive raw = none →
      toRaw (createReactive c raw w).2 (JVal.obj (createReactive c raw w).1) =
        JVal.obj raw) ∧
    (∀ (w : World) (n : Int), toRaw w (JVal.num n) = JVal.num n) ∧
    (∀ (w : World), toRaw w JVal.jnull = JVal.jnull) ∧
    (∀ (w : World) (id : Nat),
      assocLookup w.store.reactiveToRaw id = none →
      toRaw w (JVal.obj id) = JVal.obj id) := by
  refine ⟨?_, ?_, ?_, fun w n => rfl, fun w => rfl, ?_⟩
  · intro c c' raw w
    exact createReactive_of_found (createReactive_raw_registered c raw w)
  · intro w p1 p2 t1 t2 r k1 k2 hfresh h1 h2 hr1 hr2
    have hg1 : proxyGet p1 k1 w =
        (JVal.obj (createProxy ((assocLookup w.store.owner p1).getD 0) r w).1,
         (createProxy ((assocLookup w.store.owner p1).getD 0) r w).2) := by
      simp [proxyGet, h1, hr1]
    have hq2 := createProxy_preserves_reactive_lookup
      ((assocLookup w.store.owner p1).getD 0) r w p2 t2 h2 (hfresh p2 t2 h2)
    have hh := createProxy_heap ((assocLookup w.store.owner p1).getD 0) r w
    have hrr := createProxy_raw_registered ((assocLookup w.store.owner p1).getD 0) r w
    have hr2' : heapGet (createProxy ((assocLookup w.store.owner p1).getD 0) r w).2.heap
        t2 k2 = JVal.obj r := by
      rw [hh]; exact hr2
    have hg2 : proxyGet p2 k2
        (createProxy ((assocLookup w.store.owner p1).getD 0) r w).2 =
        (JVal.obj (createProxy ((assocLookup w.store.owner p1).getD 0) r w).1,
         (createProxy ((assocLookup w.store.owner p1).getD 0) r w).2) := by
      have hfound := createProxy_of_found
        (c := (assocLookup
          (createProxy ((assocLookup w.store.owner p1).getD 0) r w).2.store.owner
            p2).getD 0) hrr
      simp [proxyGet, hq2, hr2', hfound]
    rw [hg1, hg2]
    exact ⟨rfl, rfl⟩
  · intro c raw w h
    simp [createReactive, h, createProxy, toRaw, assocLookup]
  · intro w id h
    simp [toRaw, h]

/-- Witness for `reactive_identity_stability`: the double-read part at
`worldNested` (both reads of property `a` through proxy 0 yield the
same nested proxy for raw object 30), the `toRaw` inversion at a fresh
wrap of raw object 5, and `toRaw` on the untracked object 9. -/
theorem reactive_identity_stability_witness :
    ((proxyGet 0 "a" (proxyGet 0 "a" worldNested).2).1 =
      (proxyGet 0 "a" worldNested).1 ∧
     (proxyGet 0 "a" (proxyGet 0 "a" worldNested).2).2 =
      (proxyGet 0 "a" worldNested).2) ∧
    toRaw (createReactive 3 5 World.empty).2
      (JVal.obj (createReactive 3 5 World.empty).1) = JVal.obj 5 ∧
    toRaw World.empty (JVal.obj 9) = JVal.obj 9 := by
  have hfresh : proxyIdsFresh worldNested := by
    intro q t h
    by_cases h0 : (0 : Nat) = q
    · rw [← h0]
      decide
    · simp [worldNested, assocLookup, h0] at h
  exact ⟨reactive_identity_stability.2.1 worldNested 0 0 10 10 30 "a" "a"
      hfresh rfl rfl (by decide) (by decide),
    reactive_identity_stability.2.2.1 3 5 World.empty rfl,
    reactive_identity_stability.2.2.2.2.2 World.empty 9 rfl⟩

/-- C10: wrapping a raw object — whether by the make-reactive primitive
or lazily through the proxy `get` trap — never mutates the object heap:
after wrapping, every object's own properties are exactly those it had
before (the marker exists only as trap answers, and the raw↔proxy
bookkeeping lives in the external maps of the store).  The wrap also
performs no `update()` notification. -/
theorem reactive_wrap_never_mutates_raw :
    (∀ (c raw : Nat) (w : World),
      (createReactive c raw w).2.heap = w.heap ∧
      (createReactive c raw w).2.updates = w.updates) ∧
    (∀ (c target : Nat) (w : World), (createProxy c target w).2.heap = w.heap) ∧
    (∀ (p : Nat) (key : String) (w : World), (proxyGet p key w).2.heap = w.heap) := by
  refine ⟨?_, createProxy_heap, ?_⟩
  · intro c raw w
    cases h : assocLookup w.store.rawToReactive raw with
    | some p => simp [createReactive, h]
    | none =>
        constructor
        · simpa [createReactive, h] using createProxy_heap c raw w
        · simpa [createReactive, h] using createProxy_updates c raw w
  · intro p key w
    cases h : assocLookup w.store.reactiveToRaw p with
    | none => simp [proxyGet, h]
    | some target =>
        cases h2 : heapGet w.heap target key with
        | obj id => simp [proxyGet, h, h2, createProxy_heap]
        | jnull => simp [proxyGet, h, h2]
        | undef => simp [proxyGet, h, h2]
        | num n => simp [proxyGet, h, h2]
        | str s => simp [proxyGet, h, h2]
        | jbool b => simp [proxyGet, h, h2]

end RiotComposables